import Mathlib

/-! Overview.
Verification of the session draft/publish lifecycle of the wellness-session
platform: the backend controller (`saveDraft`, `publishSession`), its route
validation (`sessionValidation`), the Mongoose schema constraints, and the
frontend editor (`SessionEditor.tsx`): the debounced autosave scheduler,
the client-side `saveDraft` callback and `handlePublish`.

Strings are modelled as lists of characters (`Str`) with structural
implementations of trimming and comma-splitting, so that every definition
is executable and every concrete instance can be settled by `decide`.
Timestamps and identifiers are natural numbers; `Date.now()` becomes an
explicit `now : Nat` argument; MongoDB object ids become `Nat` keys minted
from a `nextId` counter.

The URL grammar of validator.js `isURL` (used by the route validation on
`json_file_url`) belongs to an external library and is not reproduced:
the route validation and everything downstream of it are parameterized by
the URL predicate, and each theorem quantifies over it, so a hypothesis
`sessionValidation isURL b = true` refers to the verdict of the actual
middleware, whatever that grammar is. Witnesses and counterexamples
instantiate the parameter with `isURLApprox`, a concrete approximation
that agrees with validator.js (default options, in particular
require_tld) on every URL appearing in this file, such as
`https://example.com/y.json`.
-/

namespace WellnessSessions

/-- Strings, modelled as lists of characters. -/
abbrev Str := List Char

/-- Whitespace characters removed by trimming (space, tab, newline, carriage
return), as in JavaScript's `trim()` for the inputs this system handles. -/
def isWS (c : Char) : Bool := c == ' ' || c == '\t' || c == '\n' || c == '\r'

/-- Structural model of `String.prototype.trim`: removes leading and trailing
whitespace. -/
def trimStr (s : Str) : Str :=
  ((s.dropWhile isWS).reverse.dropWhile isWS).reverse

/-- Structural model of JavaScript `s.split(',')`: splits at every comma,
keeping empty segments (so the empty string splits into one empty segment). -/
def splitComma : Str → List Str
  | [] => [[]]
  | c :: cs =>
    let r := splitComma cs
    if c == ',' then [] :: r
    else (c :: r.headD []) :: r.tail

/-- Session status enum of the Mongoose schema (`models/Session.js`):
`draft` or `published`, default `draft`. -/
inductive Status
  | draft
  | published
deriving DecidableEq, Repr

/-- A persisted session record (`models/Session.js`): owner, title, tags,
JSON file URL (the content reference), status and timestamps. -/
structure Session where
  id : Nat
  user_id : Nat
  title : Str
  tags : List Str
  json_file_url : Str
  status : Status
  created_at : Nat
  updated_at : Nat
deriving DecidableEq, Repr

/-- The session store: the list of persisted records plus the counter from
which fresh ids are minted on create. -/
structure Store where
  sessions : List Session
  nextId : Nat
deriving DecidableEq, Repr

/-- The error outcomes of the controller endpoints: 400 with validation
errors (`ValidationError`), 400 for a missing session id on publish
(`BadRequest`), 404 (`NotFound`), and the catch-all 500 (`ServerError`). -/
inductive ApiError
  | ValidationError
  | BadRequest
  | NotFound
  | ServerError
deriving DecidableEq, Repr

/-- The tags field of the save-draft request body as received in JSON:
absent (undefined — the only value the `optional()` validator skips),
present but not an array (null or any other non-array carrier, falsy or
not — always rejected by the `isArray` check), or an array of strings. -/
inductive TagsField
  | absent
  | notArray
  | arr (tags : List Str)
deriving DecidableEq, Repr

/-- The request body of `POST /my-sessions/save-draft`:
`{ title, tags, json_file_url, sessionId }`, where `tags` and `sessionId`
may be absent. -/
structure DraftBody where
  title : Str
  tags : TagsField
  json_file_url : Str
  sessionId : Option Nat
deriving DecidableEq, Repr

/-- The controller's `tags || []`: an absent tags field becomes the empty
list; an array is kept. A present non-array value never reaches the
controller (route validation rejects the request first), so its image
here is irrelevant. -/
def tagsOrEmpty : TagsField → List Str
  | .absent => []
  | .notArray => []
  | .arr ts => ts

/-- The route's `body('tags').optional().isArray()` check: skipped when
the field is absent (undefined), failed by any present non-array value. -/
def tagsArrayOk : TagsField → Bool
  | .notArray => false
  | _ => true

/-- Route validation middleware (`routes/sessions.js`, `sessionValidation`):
`title` trimmed and of length 1..200; `json_file_url` trimmed, nonempty
(notEmpty) and accepted by validator.js `isURL`; `tags` optional but an
array when present. The external URL grammar is the parameter `isURL`;
theorems quantify over it (see the module comment). -/
def sessionValidation (isURL : Str → Bool) (b : DraftBody) : Bool :=
  let t := trimStr b.title
  let u := trimStr b.json_file_url
  decide (1 ≤ t.length) && decide (t.length ≤ 200) &&
  decide (1 ≤ u.length) && isURL u && tagsArrayOk b.tags

/-- Splits a character list at every occurrence of the separator, keeping
empty segments. -/
def splitChar (sep : Char) : Str → List Str
  | [] => [[]]
  | c :: cs =>
    let r := splitChar sep cs
    if c == sep then [] :: r
    else (c :: r.headD []) :: r.tail

/-- Drops a leading http, https or ftp protocol, when present. -/
def stripProtocol (s : Str) : Str :=
  if ("http://".data).isPrefixOf s then s.drop 7
  else if ("https://".data).isPrefixOf s then s.drop 8
  else if ("ftp://".data).isPrefixOf s then s.drop 6
  else s

/-- A concrete approximation of validator.js `isURL` with default options,
used only to instantiate witnesses and counterexamples: optional protocol,
no spaces, and a dot-separated host whose labels are nonempty and whose
final label (the top-level domain, required by the default require_tld)
has at least two characters. It agrees with validator.js on every URL
appearing in this file, such as `https://example.com/y.json`. -/
def isURLApprox (s : Str) : Bool :=
  let host := (stripProtocol s).takeWhile (fun c => c != '/')
  let labels := splitChar '.' host
  s.all (fun c => c != ' ') &&
  decide (2 ≤ labels.length) &&
  labels.all (fun l => decide (1 ≤ l.length)) &&
  decide (2 ≤ (labels.getLastD []).length)

/-- Mongoose schema validation (`models/Session.js`), applied to the already
trimmed values (the schema's `trim: true` setters run before validators):
`title` required with maxlength 200, `json_file_url` required, every tag
with maxlength 50. -/
def schemaValid (t u : Str) (tags : List Str) : Bool :=
  decide (1 ≤ t.length) && decide (t.length ≤ 200) &&
  decide (1 ≤ u.length) &&
  tags.all (fun tg => decide (tg.length ≤ 50))

/-- The MongoDB filter `{ _id: sessionId, user_id: uid }` used by both
`findOneAndUpdate` calls of the controller. -/
def ownedQuery (sid uid : Nat) (r : Session) : Bool :=
  r.id == sid && r.user_id == uid

/-- Model of `findOneAndUpdate`'s write: replaces the first record matching
the filter, leaving everything else untouched. -/
def updateFirst (p : Session → Bool) (s' : Session) : List Session → List Session
  | [] => []
  | r :: rs => if p r then s' :: rs else r :: updateFirst p s' rs

/-- The `saveDraft` controller (`controllers/sessionController.js`):
route validation first (400 on failure, before any store access); then
either `findOneAndUpdate` on `{ _id: sessionId, user_id }` (404 when no
owned record matches) or creation of a fresh draft. Mongoose validation
failures on the write (for example an oversized tag) are thrown and caught
by the catch-all handler, surfacing as a 500 `ServerError`; they are
checked before the document is written, so nothing is persisted. -/
def saveDraft (isURL : Str → Bool) (store : Store) (uid : Nat) (b : DraftBody) (now : Nat) :
    Except ApiError (Store × Session) :=
  if sessionValidation isURL b then
    let t := trimStr b.title
    let u := trimStr b.json_file_url
    let tags := (tagsOrEmpty b.tags).map trimStr
    match b.sessionId with
    | some sid =>
      if schemaValid t u tags then
        match store.sessions.find? (ownedQuery sid uid) with
        | some s =>
          let s' : Session :=
            { s with title := t, tags := tags, json_file_url := u, updated_at := now }
          .ok ({ store with sessions := updateFirst (ownedQuery sid uid) s' store.sessions }, s')
        | none => .error .NotFound
      else .error .ServerError
    | none =>
      if schemaValid t u tags then
        let s : Session :=
          { id := store.nextId, user_id := uid, title := t, tags := tags,
            json_file_url := u, status := .draft, created_at := now, updated_at := now }
        .ok ({ sessions := store.sessions ++ [s], nextId := store.nextId + 1 }, s)
      else .error .ServerError
  else .error .ValidationError

/-- The `publishSession` controller (`controllers/sessionController.js`):
400 when the body carries no session id, otherwise `findOneAndUpdate` on
`{ _id: sessionId, user_id }` setting `status: 'published'` and refreshing
`updated_at`; 404 when no owned record matches. -/
def publishSession (store : Store) (uid : Nat) (sessionId : Option Nat) (now : Nat) :
    Except ApiError (Store × Session) :=
  match sessionId with
  | none => .error .BadRequest
  | some sid =>
    match store.sessions.find? (ownedQuery sid uid) with
    | some s =>
      let s' : Session := { s with status := .published, updated_at := now }
      .ok ({ store with sessions := updateFirst (ownedQuery sid uid) s' store.sessions }, s')
    | none => .error .NotFound

/-- An operation of this core applied to the store: a save-draft request or
a publish request. -/
inductive Op
  | save (uid : Nat) (b : DraftBody) (now : Nat)
  | pub (uid : Nat) (sessionId : Option Nat) (now : Nat)
deriving Repr

/-- The store after one operation; a failed operation writes nothing. -/
def applyOp (isURL : Str → Bool) (store : Store) : Op → Store
  | .save uid b now =>
    match saveDraft isURL store uid b now with
    | .ok (st', _) => st'
    | .error _ => store
  | .pub uid sessionId now =>
    match publishSession store uid sessionId now with
    | .ok (st', _) => st'
    | .error _ => store

/-- The store after a sequence of operations. -/
def applyOps (isURL : Str → Bool) (store : Store) (ops : List Op) : Store :=
  ops.foldl (applyOp isURL) store

/-- Store well-formedness: every persisted id is below the fresh-id counter,
so a created record never collides with an existing id. -/
def StoreWF (store : Store) : Prop :=
  ∀ s ∈ store.sessions, s.id < store.nextId

/-- The record with the given id exists and is published (every record
carrying that id, to avoid assuming id uniqueness). -/
def PublishedAt (store : Store) (sid : Nat) : Prop :=
  (∃ s ∈ store.sessions, s.id = sid) ∧
  ∀ s ∈ store.sessions, s.id = sid → s.status = .published

/-- The editor's form state (`SessionEditor.tsx`, `formData`): title, a
comma-separated tags string, and the JSON file URL. -/
structure FormData where
  title : Str
  tags : Str
  json_file_url : Str
deriving DecidableEq, Repr

/-- The tag list the frontend sends:
`data.tags.split(',').map(tag => tag.trim()).filter(tag => tag !== '')`. -/
def parseTags (s : Str) : List Str :=
  ((splitComma s).map trimStr).filter (fun t => !(t == []))

/-- The request body the frontend `saveDraft` callback posts: trimmed title
and URL, parsed tags, and the current session id. -/
def bodyOfForm (fd : FormData) (sid : Option Nat) : DraftBody :=
  { title := trimStr fd.title
    tags := .arr (parseTags fd.tags)
    json_file_url := trimStr fd.json_file_url
    sessionId := sid }

/-- The combined client+server state seen by the editor page: the form
fields, the remembered session id, the unsaved-changes flag, and the store
behind the API. -/
structure EditorState where
  formData : FormData
  currentSessionId : Option Nat
  hasUnsavedChanges : Bool
  store : Store
deriving Repr

/-- The frontend `saveDraft` callback: returns without saving when title or
URL is empty after trimming; otherwise posts the draft. On success it
records the minted id (when none was known) and clears
`hasUnsavedChanges`; a failed request is caught and swallowed, leaving the
state unchanged apart from the store (which a failed request never
modifies). -/
def clientSaveDraft (isURL : Str → Bool) (uid : Nat) (data : FormData) (st : EditorState)
    (now : Nat) : EditorState :=
  if decide (trimStr data.title = []) || decide (trimStr data.json_file_url = []) then st
  else
    match saveDraft isURL st.store uid (bodyOfForm data st.currentSessionId) now with
    | .ok (store', s) =>
      { st with store := store'
                currentSessionId := some (st.currentSessionId.getD s.id)
                hasUnsavedChanges := false }
    | .error _ => st

/-- The frontend `handlePublish`: returns when title or URL is empty after
trimming; otherwise flushes through `saveDraft` when `hasUnsavedChanges`
is set, then posts the publish request. The publish body carries the
`currentSessionId` captured by the handler's closure (the value from
before the flush), faithful to the React state semantics of the source. -/
def handlePublish (isURL : Str → Bool) (uid : Nat) (st : EditorState) (now : Nat) :
    EditorState :=
  if decide (trimStr st.formData.title = []) ||
     decide (trimStr st.formData.json_file_url = []) then st
  else
    let st1 :=
      if st.hasUnsavedChanges then clientSaveDraft isURL uid st.formData st now else st
    match publishSession st1.store uid st.currentSessionId now with
    | .ok (store', _) => { st1 with store := store' }
    | .error _ => st1

/-- The autosave quiet interval: 5 time units (5000 ms in the source). -/
def debounceDelay : Nat := 5

/-- The autosave scheduler state: the pending debounce timer, if any,
with its fire time and the form data captured when it was armed. -/
structure SchedState where
  timer : Option (Nat × FormData)
deriving Repr

/-- One edit event at time `t` in the debounced auto-save effect of
`SessionEditor.tsx`: the effect cleanup always clears the previous timer;
the effect body returns without arming when title and URL are both empty
after trimming, and otherwise arms a fresh timer for `t + debounceDelay`
carrying the just-edited form data. -/
def editEvent (fd : FormData) (t : Nat) : SchedState :=
  if decide (trimStr fd.title = []) && decide (trimStr fd.json_file_url = []) then
    { timer := none }
  else
    { timer := some (t + debounceDelay, fd) }

/-- The guard inside the frontend `saveDraft` callback: a flush performs an
upsert request only when both title and URL are nonempty after trimming. -/
def saveGuard (fd : FormData) : Bool :=
  !(decide (trimStr fd.title = [])) && !(decide (trimStr fd.json_file_url = []))

/-- The upsert requests issued when a timer fires: one carrying the captured
form data when the save guard passes, none otherwise. -/
def firedSaves (fd : FormData) : List FormData :=
  if saveGuard fd then [fd] else []

/-- The guard of the auto-save effect body: the effect returns without
arming only when title and URL are both empty after trimming. -/
def armGuard (fd : FormData) : Bool :=
  !(decide (trimStr fd.title = []) && decide (trimStr fd.json_file_url = []))

/-- The full scheduler state of the editor page: the pending debounce
timer, the current form data, and whether `currentSessionId` is already
set. The last field matters because the `saveDraft` callback is a
useCallback depending on `currentSessionId`: when a fresh session's first
successful save mints the id, the callback identity changes and the
auto-save effect re-runs. -/
structure AutosaveState where
  timer : Option (Nat × FormData)
  formData : FormData
  idKnown : Bool
deriving DecidableEq, Repr

/-- One run of the auto-save effect body at time `t` (the cleanup of the
previous run has already cleared any pending timer): return without arming
when both required fields of the current form data are empty, otherwise
arm a timer for `t + debounceDelay` carrying the current form data. -/
def effectRun (st : AutosaveState) (t : Nat) : AutosaveState :=
  { st with timer :=
      if armGuard st.formData then some (t + debounceDelay, st.formData) else none }

/-- An edit event at time `t`: the form data changes, the effect cleanup
clears the previous timer, and the effect body re-runs. -/
def autosaveEdit (fd : FormData) (t : Nat) (st : AutosaveState) : AutosaveState :=
  effectRun { st with formData := fd } t

/-- Firing the pending timer: the captured form data is posted when the
save guard passes. When the saved session had no id yet, the successful
save mints one (`setCurrentSessionId`), the `saveDraft` callback identity
changes, and the effect re-runs at the completion time, arming one more
timer with the current form data; a save on a known id changes no effect
dependency, so nothing is re-armed. A guard-failing fire posts nothing and
mints nothing. Save completion is modelled at the fire time. -/
def fireOne (st : AutosaveState) : List FormData × AutosaveState :=
  match st.timer with
  | none => ([], st)
  | some (ft, fdt) =>
    if saveGuard fdt then
      if st.idKnown then ([fdt], { st with timer := none })
      else ([fdt], effectRun { st with timer := none, idKnown := true } ft)
    else ([], { st with timer := none })

/-- Fires every timer due by time `t`. Two rounds suffice: only a fire on
an unknown id re-arms, and it sets `idKnown`, so a third due timer cannot
exist. -/
def fireDue (st : AutosaveState) (t : Nat) : List FormData × AutosaveState :=
  match st.timer with
  | none => ([], st)
  | some (ft, _) =>
    if ft ≤ t then
      match fireOne st with
      | (out1, st1) =>
        match st1.timer with
        | none => (out1, st1)
        | some (ft2, _) =>
          if ft2 ≤ t then
            match fireOne st1 with
            | (out2, st2) => (out1 ++ out2, st2)
          else (out1, st1)
    else ([], st)

/-- Fires every remaining timer once the edit stream ends (time runs to
infinity). Two rounds suffice for the same reason as in `fireDue`. -/
def drainAll (st : AutosaveState) : List FormData :=
  match fireOne st with
  | (out1, st1) =>
    match fireOne st1 with
    | (out2, _) => out1 ++ out2

/-- Runs the editor's autosave machinery over a time-ordered list of edit
events and returns the form-data payloads of every upsert request issued,
firing due timers before each edit and draining the rest at the end. -/
def autosaveRun : AutosaveState → List (Nat × FormData) → List FormData
  | st, [] => drainAll st
  | st, (t, fd) :: rest =>
    match fireDue st t with
    | (out, st1) => out ++ autosaveRun (autosaveEdit fd t st1) rest

/-- Consecutive edit events are in increasing time order and within the
quiet interval of one another. -/
def gapOk (a b : Nat × FormData) : Prop :=
  a.1 < b.1 ∧ b.1 < a.1 + debounceDelay

instance : DecidableRel gapOk := fun a b => by
  unfold gapOk
  infer_instance

/-! Section: Concrete fixtures used by witnesses and counterexamples -/

/-- A concrete published record owned by user 7. -/
def wPub : Session :=
  { id := 1, user_id := 7, title := ("T".data), tags := [],
    json_file_url := ("https://example.com/y.json".data), status := .published,
    created_at := 0, updated_at := 1 }

/-- A store holding only `wPub`. -/
def wPubStore : Store := { sessions := [wPub], nextId := 2 }

/-- A concrete draft record owned by user 7, with two stored tags. -/
def wDraft : Session :=
  { id := 1, user_id := 7, title := ("Old".data), tags := [("yoga".data), ("calm".data)],
    json_file_url := ("https://example.com/old.json".data), status := .draft,
    created_at := 0, updated_at := 0 }

/-- A store holding only `wDraft`. -/
def wDraftStore : Store := { sessions := [wDraft], nextId := 2 }

/-- A valid save-draft body addressing record 1. -/
def wBody : DraftBody :=
  { title := ("New".data), tags := .arr [("yoga".data)],
    json_file_url := ("https://example.com/new.json".data), sessionId := some 1 }

/-- A valid save-draft body addressing record 1 with the tags field omitted. -/
def wBodyNoTags : DraftBody :=
  { title := ("New".data), tags := .absent,
    json_file_url := ("https://example.com/new.json".data), sessionId := some 1 }

/-- A save-draft body addressing record 1 whose tags field is present but
not an array (for example null). -/
def wBodyNullTags : DraftBody :=
  { title := ("New".data), tags := .notArray,
    json_file_url := ("https://example.com/new.json".data), sessionId := some 1 }

/-- An editor state with a pending unsaved edit over `wDraftStore` whose
tags field parses to one oversized (51-character) tag. -/
def wEditCex : EditorState :=
  { formData := { title := ("New".data), tags := List.replicate 51 'a',
                  json_file_url := ("https://example.com/new.json".data) },
    currentSessionId := some 1, hasUnsavedChanges := true, store := wDraftStore }

/-- An editor state with a valid pending unsaved edit over `wDraftStore`. -/
def wEditOk : EditorState :=
  { formData := { title := (" New ".data), tags := ("yoga, calm".data),
                  json_file_url := ("https://example.com/new.json".data) },
    currentSessionId := some 1, hasUnsavedChanges := true, store := wDraftStore }

/-- An intermediate edit whose URL is still empty. -/
def wFd0 : FormData := { title := ("a".data), tags := [], json_file_url := [] }

/-- The empty form a fresh editor starts with. -/
def wFdEmpty : FormData := { title := [], tags := [], json_file_url := [] }

/-- A final, complete edit. -/
def wFd1 : FormData :=
  { title := ("Session".data), tags := ("yoga".data),
    json_file_url := ("https://example.com/y.json".data) }

instance (store : Store) : Decidable (StoreWF store) := by
  unfold StoreWF
  infer_instance

instance (store : Store) (sid : Nat) : Decidable (PublishedAt store sid) := by
  unfold PublishedAt
  infer_instance

/-! Section: Basic lemmas about the embedded operations -/

theorem trimStr_nil : trimStr [] = [] := rfl

theorem ownedQuery_iff (sid uid : Nat) (s : Session) :
    ownedQuery sid uid s = true ↔ s.id = sid ∧ s.user_id = uid := by
  simp [ownedQuery]

theorem updateFirst_decomp (p : Session → Bool) (s' : Session) (l : List Session) (s : Session)
    (h : l.find? p = some s) :
    ∃ l1 l2, l = l1 ++ s :: l2 ∧ (∀ r ∈ l1, p r = false) ∧
      updateFirst p s' l = l1 ++ s' :: l2 := by
  induction l with
  | nil => simp at h
  | cons r rs ih =>
    by_cases hp : p r
    · rw [List.find?_cons_of_pos _ hp] at h
      obtain rfl : r = s := by injection h
      exact ⟨[], rs, by simp, by simp, by simp [updateFirst, hp]⟩
    · rw [List.find?_cons_of_neg _ hp] at h
      obtain ⟨l1, l2, hl, hfalse, hupd⟩ := ih h
      refine ⟨r :: l1, l2, by simp [hl], ?_, ?_⟩
      · intro x hx
        rcases List.mem_cons.mp hx with rfl | hx
        · simpa using hp
        · exact hfalse x hx
      · simp [updateFirst, hp, hupd]

theorem find?_prefix_cons (p : Session → Bool) (l1 : List Session) (x : Session)
    (l2 : List Session) (h1 : ∀ r ∈ l1, p r = false) (hx : p x = true) :
    (l1 ++ x :: l2).find? p = some x := by
  induction l1 with
  | nil => simpa using List.find?_cons_of_pos l2 hx
  | cons a l ih =>
    have ha : ¬ p a = true := by simp [h1 a (by simp)]
    simpa [List.find?_cons_of_neg _ ha] using ih fun r hr => h1 r (by simp [hr])

theorem updateFirst_prefix_cons (p : Session → Bool) (y : Session) (l1 : List Session)
    (x : Session) (l2 : List Session)
    (h1 : ∀ r ∈ l1, p r = false) (hx : p x = true) :
    updateFirst p y (l1 ++ x :: l2) = l1 ++ y :: l2 := by
  induction l1 with
  | nil => simp [updateFirst, hx]
  | cons a l ih =>
    have ha : ¬ p a = true := by simp [h1 a (by simp)]
    simpa [updateFirst, ha] using ih fun r hr => h1 r (by simp [hr])

theorem schemaValid_of_validation (isURL : Str → Bool) (b : DraftBody)
    (hval : sessionValidation isURL b = true)
    (htags : ((tagsOrEmpty b.tags).map trimStr).all (fun tg => decide (tg.length ≤ 50))
      = true) :
    schemaValid (trimStr b.title) (trimStr b.json_file_url) ((tagsOrEmpty b.tags).map trimStr)
      = true := by
  simp only [sessionValidation, Bool.and_eq_true, decide_eq_true_eq] at hval
  simp only [schemaValid, Bool.and_eq_true, decide_eq_true_eq]
  exact ⟨⟨⟨hval.1.1.1.1, hval.1.1.1.2⟩, hval.1.1.2⟩, htags⟩

/-! Section: Claim C8: empty required fields are rejected with no store write -/

/-- Claim C8: whatever URL grammar the middleware uses, a save-draft request
whose title or content reference is empty or whitespace-only after
trimming returns ValidationError and performs no store write at all. -/
theorem empty_required_fields_rejected (isURL : Str → Bool) (store : Store) (uid now : Nat)
    (b : DraftBody)
    (h : trimStr b.title = [] ∨ trimStr b.json_file_url = []) :
    saveDraft isURL store uid b now = .error .ValidationError ∧
    applyOp isURL store (.save uid b now) = store := by
  have hval : sessionValidation isURL b = false := by
    rcases h with h | h <;> simp [sessionValidation, h]
  simp [saveDraft, applyOp, hval]

/-- Witness for claim C8: a concrete request with a whitespace-only title and
a valid URL is rejected with ValidationError and leaves a concrete store
untouched. -/
theorem empty_required_fields_rejected_witness :
    trimStr ("   ".data) = [] ∧
    (saveDraft isURLApprox { sessions := [], nextId := 1 } 7
        { title := ("   ".data), tags := .arr [],
          json_file_url := ("https://example.com/y.json".data), sessionId := none } 3
      = .error .ValidationError ∧
     applyOp isURLApprox { sessions := [], nextId := 1 }
        (.save 7 { title := ("   ".data), tags := .arr [],
                   json_file_url := ("https://example.com/y.json".data), sessionId := none } 3)
      = { sessions := [], nextId := 1 }) :=
  ⟨by decide,
   empty_required_fields_rejected isURLApprox { sessions := [], nextId := 1 } 7 3
     { title := ("   ".data), tags := .arr [],
       json_file_url := ("https://example.com/y.json".data), sessionId := none }
     (Or.inl (by decide))⟩

/-! Section: Claim C7: when does an edit event arm the debounce timer? -/

/-- Counterexample to claim C7: with a nonempty title and an empty content
reference (a required field empty after trimming), an edit event still arms
the debounce timer — the scheduler only short-circuits when both required
fields are empty, contrary to the claim. -/
theorem edit_event_arms_timer_with_empty_url_cex :
    trimStr (({ title := ("a".data), tags := [], json_file_url := [] } : FormData).json_file_url)
      = [] ∧
    (editEvent { title := ("a".data), tags := [], json_file_url := [] } 0).timer =
      some (5, { title := ("a".data), tags := [], json_file_url := [] }) := by
  exact ⟨rfl, rfl⟩

/-- Claim C7 as amended: an edit event arms no debounce timer only when both
required fields (title and content reference) are empty after trimming; in
that case no autosave timer is pending. -/
theorem no_timer_when_both_required_empty (fd : FormData) (t : Nat)
    (h1 : trimStr fd.title = []) (h2 : trimStr fd.json_file_url = []) :
    (editEvent fd t).timer = none := by
  simp [editEvent, h1, h2]

/-- Witness for the amended claim C7: a concrete all-whitespace form arms no
timer. -/
theorem no_timer_when_both_required_empty_witness :
    trimStr (" ".data) = [] ∧ trimStr [] = [] ∧
    (editEvent { title := (" ".data), tags := ("x".data), json_file_url := [] } 4).timer
      = none :=
  ⟨by decide, by decide,
   no_timer_when_both_required_empty
     { title := (" ".data), tags := ("x".data), json_file_url := [] } 4
     (by decide) (by decide)⟩

/-! Section: Claim C9: oversized fields -/

/-- Counterexample to claim C9: a save-draft request with a valid title and
URL but a tag of 51 characters fails with the catch-all ServerError (500),
not with ValidationError — the route validation checks only that `tags` is
an array, and the Mongoose maxlength failure is mapped to a 500 by the
controller's catch block. -/
theorem oversized_tag_not_validation_error_cex :
    saveDraft isURLApprox { sessions := [], nextId := 1 } 7
        { title := ("T".data),
          tags := .arr [("aaaaaaaaaaaaaaaaaaaaaaaaaaaaaaaaaaaaaaaaaaaaaaaaaaa".data)],
          json_file_url := ("https://example.com/y.json".data), sessionId := none } 0
      = .error .ServerError ∧
    ApiError.ServerError ≠ ApiError.ValidationError :=
  ⟨rfl, by decide⟩

/-- Claim C9 as amended: a save-draft request with a title longer than 200
units after trimming fails with ValidationError and writes nothing; a
request passing route validation but carrying a tag longer than 50 units
after trimming fails with ServerError (not ValidationError) and also
writes nothing. -/
theorem oversized_fields_outcomes (isURL : Str → Bool) (store : Store) (uid now : Nat)
    (b : DraftBody) :
    (200 < (trimStr b.title).length →
      saveDraft isURL store uid b now = .error .ValidationError ∧
      applyOp isURL store (.save uid b now) = store) ∧
    (sessionValidation isURL b = true →
      ((tagsOrEmpty b.tags).map trimStr).all (fun tg => decide (tg.length ≤ 50)) = false →
      saveDraft isURL store uid b now = .error .ServerError ∧
      applyOp isURL store (.save uid b now) = store) := by
  constructor
  · intro hlong
    have h200 : decide ((trimStr b.title).length ≤ 200) = false := by
      simp only [decide_eq_false_iff_not]
      omega
    have hval : sessionValidation isURL b = false := by
      simp [sessionValidation, h200]
    simp [saveDraft, applyOp, hval]
  · intro hval htagsF
    have hschema :
        schemaValid (trimStr b.title) (trimStr b.json_file_url)
          ((tagsOrEmpty b.tags).map trimStr) = false := by
      simp [schemaValid, htagsF]
    cases hbs : b.sessionId <;> simp [saveDraft, applyOp, hval, hbs, hschema]

set_option maxRecDepth 8000 in
/-- Witness for the amended claim C9: a 201-character title yields
ValidationError; a valid request with one 51-character tag yields
ServerError; neither modifies a concrete store. -/
theorem oversized_fields_outcomes_witness :
    (saveDraft isURLApprox { sessions := [], nextId := 1 } 7
        { title := List.replicate 201 'a', tags := .arr [],
          json_file_url := ("https://example.com/y.json".data), sessionId := none } 0
      = .error .ValidationError ∧
     applyOp isURLApprox { sessions := [], nextId := 1 }
        (.save 7 { title := List.replicate 201 'a', tags := .arr [],
                   json_file_url := ("https://example.com/y.json".data), sessionId := none } 0)
      = { sessions := [], nextId := 1 }) ∧
    (saveDraft isURLApprox { sessions := [], nextId := 1 } 7
        { title := ("T".data),
          tags := .arr [List.replicate 51 'b'],
          json_file_url := ("https://example.com/y.json".data), sessionId := none } 0
      = .error .ServerError ∧
     applyOp isURLApprox { sessions := [], nextId := 1 }
        (.save 7 { title := ("T".data),
                   tags := .arr [List.replicate 51 'b'],
                   json_file_url := ("https://example.com/y.json".data), sessionId := none } 0)
      = { sessions := [], nextId := 1 }) :=
  ⟨(oversized_fields_outcomes isURLApprox { sessions := [], nextId := 1 } 7 0
      { title := List.replicate 201 'a', tags := .arr [],
        json_file_url := ("https://example.com/y.json".data), sessionId := none }).1
     (by decide),
   (oversized_fields_outcomes isURLApprox { sessions := [], nextId := 1 } 7 0
      { title := ("T".data),
        tags := .arr [List.replicate 51 'b'],
        json_file_url := ("https://example.com/y.json".data), sessionId := none }).2
     (by decide) (by decide)⟩

/-! Section: Claim C4: publish is idempotent on already-published records -/

/-- Claim C4: publishing an already-published record owned by the caller
succeeds (returns the session, no error), leaves the status published, and
refreshes updated_at — a retried publish request never errors. -/
theorem publish_retry_idempotent (store : Store) (uid sid now : Nat) (s : Session)
    (hfind : store.sessions.find? (ownedQuery sid uid) = some s)
    (_hpub : s.status = .published) :
    ∃ st' s', publishSession store uid (some sid) now = .ok (st', s') ∧
      s'.status = .published ∧ s'.updated_at = now ∧ s'.id = s.id ∧
      s'.title = s.title ∧ s'.tags = s.tags ∧ s'.json_file_url = s.json_file_url ∧
      st'.sessions.find? (ownedQuery sid uid) = some s' := by
  set s2 : Session := { s with status := .published, updated_at := now } with hs2
  obtain ⟨l1, l2, hl, hfalse, hupd⟩ := updateFirst_decomp (ownedQuery sid uid) s2 store.sessions s hfind
  have hq : ownedQuery sid uid s = true := List.find?_some hfind
  have hq2 : ownedQuery sid uid s2 = true := by
    simpa [hs2, ownedQuery] using hq
  refine ⟨{ store with sessions := updateFirst (ownedQuery sid uid) s2 store.sessions }, s2, ?_, rfl, rfl, rfl, rfl, rfl, rfl, ?_⟩
  · simp [publishSession, hfind, hs2]
  · show (updateFirst (ownedQuery sid uid) s2 store.sessions).find? (ownedQuery sid uid) = some s2
    rw [hupd]
    exact find?_prefix_cons _ _ _ _ hfalse hq2

/-- Witness for claim C4: retrying publish on a concrete already-published
record succeeds with the status still published and updated_at refreshed. -/
theorem publish_retry_idempotent_witness :
    wPubStore.sessions.find? (ownedQuery 1 7) = some wPub ∧
    ∃ st' s', publishSession wPubStore 7 (some 1) 9 = .ok (st', s') ∧
      s'.status = .published ∧ s'.updated_at = 9 ∧ s'.id = wPub.id ∧
      s'.title = wPub.title ∧ s'.tags = wPub.tags ∧ s'.json_file_url = wPub.json_file_url ∧
      st'.sessions.find? (ownedQuery 1 7) = some s' :=
  ⟨by decide, publish_retry_idempotent wPubStore 7 1 9 wPub (by decide) (by decide)⟩

/-! Section: Claim C5: save_draft with a known id is an idempotent overwrite -/

/-- Claim C5: calling save_draft twice with the same known id and the same
field values succeeds both times, persists the same title, tags, content
reference and owner after each call, and never creates a second record —
the update is a pure overwrite, not an append. -/
theorem save_draft_idempotent_upsert (isURL : Str → Bool) (store : Store)
    (uid sid n1 n2 : Nat) (b : DraftBody) (s : Session)
    (hfind : store.sessions.find? (ownedQuery sid uid) = some s)
    (hval : sessionValidation isURL b = true) (hbsid : b.sessionId = some sid)
    (htags : ((tagsOrEmpty b.tags).map trimStr).all (fun tg => decide (tg.length ≤ 50))
      = true) :
    ∃ st1 r1 st2 r2,
      saveDraft isURL store uid b n1 = .ok (st1, r1) ∧
      saveDraft isURL st1 uid b n2 = .ok (st2, r2) ∧
      r1.title = r2.title ∧ r1.tags = r2.tags ∧
      r1.json_file_url = r2.json_file_url ∧ r1.user_id = r2.user_id ∧
      r1.user_id = s.user_id ∧
      st1.sessions.length = store.sessions.length ∧
      st2.sessions.length = store.sessions.length := by
  have hschema := schemaValid_of_validation isURL b hval htags
  have hq : ownedQuery sid uid s = true := List.find?_some hfind
  set r1 : Session := { s with title := trimStr b.title, tags := (tagsOrEmpty b.tags).map trimStr, json_file_url := trimStr b.json_file_url, updated_at := n1 } with hr1
  set r2 : Session := { s with title := trimStr b.title, tags := (tagsOrEmpty b.tags).map trimStr, json_file_url := trimStr b.json_file_url, updated_at := n2 } with hr2
  obtain ⟨l1, l2, hl, hfalse, hupd⟩ := updateFirst_decomp (ownedQuery sid uid) r1 store.sessions s hfind
  have hq1 : ownedQuery sid uid r1 = true := by
    simpa [hr1, ownedQuery] using hq
  have hfind2 : (updateFirst (ownedQuery sid uid) r1 store.sessions).find? (ownedQuery sid uid) = some r1 := by
    rw [hupd]
    exact find?_prefix_cons _ _ _ _ hfalse hq1
  refine ⟨{ store with sessions := updateFirst (ownedQuery sid uid) r1 store.sessions }, r1, { store with sessions := updateFirst (ownedQuery sid uid) r2 (updateFirst (ownedQuery sid uid) r1 store.sessions) }, r2, ?_, ?_, rfl, rfl, rfl, rfl, rfl, ?_, ?_⟩
  · simp [saveDraft, hval, hbsid, hschema, hfind, hr1]
  · simp [saveDraft, hval, hbsid, hschema, hfind2, hr1, hr2]
  · show (updateFirst (ownedQuery sid uid) r1 store.sessions).length = store.sessions.length
    rw [hupd, hl]
    simp
  · have hq2 : ownedQuery sid uid r2 = true := by
      simpa [hr2, ownedQuery] using hq
    show (updateFirst (ownedQuery sid uid) r2 (updateFirst (ownedQuery sid uid) r1 store.sessions)).length = store.sessions.length
    rw [hupd, updateFirst_prefix_cons _ _ _ _ _ hfalse hq1, hl]
    simp

/-- Witness for claim C5: two identical save-draft calls for a concrete
known record persist the same fields and leave exactly one record. -/
theorem save_draft_idempotent_upsert_witness :
    wDraftStore.sessions.find? (ownedQuery 1 7) = some wDraft ∧
    ∃ st1 r1 st2 r2,
      saveDraft isURLApprox wDraftStore 7 wBody 4 = .ok (st1, r1) ∧
      saveDraft isURLApprox st1 7 wBody 5 = .ok (st2, r2) ∧
      r1.title = r2.title ∧ r1.tags = r2.tags ∧
      r1.json_file_url = r2.json_file_url ∧ r1.user_id = r2.user_id ∧
      r1.user_id = wDraft.user_id ∧
      st1.sessions.length = wDraftStore.sessions.length ∧
      st2.sessions.length = wDraftStore.sessions.length :=
  ⟨by decide,
   save_draft_idempotent_upsert isURLApprox wDraftStore 7 1 4 5 wBody wDraft
     (by decide) (by decide) (by decide) (by decide)⟩

/-! Section: Claim C10: semantics of an omitted or falsy tags field -/

/-- Counterexample to claim C10: a save-draft body whose tags field is
present but falsy (null, an empty string, zero or false — anything that is
not an array) does not clear the stored tags: `optional()` skips only an
absent (undefined) field, so the present non-array value fails the
`isArray` check, the request is rejected with ValidationError before any
store access, and the stored record keeps its nonempty tags. -/
theorem falsy_tags_not_cleared_cex :
    saveDraft isURLApprox wDraftStore 7 wBodyNullTags 4 = .error .ValidationError ∧
    applyOp isURLApprox wDraftStore (.save 7 wBodyNullTags 4) = wDraftStore ∧
    wDraft.tags ≠ [] :=
  ⟨rfl, by decide, by decide⟩

/-- Claim C10 as amended: a valid save-draft call for an existing owned
record whose body omits the tags field entirely overwrites the stored tags
with the empty list; a body whose tags field is present but not an array
(such as a falsy null) is instead rejected with ValidationError and the
stored record — its tags included — is left unchanged. -/
theorem omitted_tags_cleared (isURL : Str → Bool) (store : Store) (uid sid now : Nat) :
    (∀ (b : DraftBody) (s : Session),
      store.sessions.find? (ownedQuery sid uid) = some s →
      sessionValidation isURL b = true → b.sessionId = some sid → b.tags = .absent →
      ∃ st' r, saveDraft isURL store uid b now = .ok (st', r) ∧ r.tags = [] ∧
        st'.sessions.find? (ownedQuery sid uid) = some r) ∧
    (∀ b : DraftBody, b.tags = .notArray →
      saveDraft isURL store uid b now = .error .ValidationError ∧
      applyOp isURL store (.save uid b now) = store) := by
  constructor
  · intro b s hfind hval hbsid hnotags
    have htags : ((tagsOrEmpty b.tags).map trimStr).all (fun tg => decide (tg.length ≤ 50))
        = true := by
      simp [hnotags, tagsOrEmpty]
    have hschema := schemaValid_of_validation isURL b hval htags
    have hq : ownedQuery sid uid s = true := List.find?_some hfind
    set r1 : Session := { s with title := trimStr b.title, tags := (tagsOrEmpty b.tags).map trimStr, json_file_url := trimStr b.json_file_url, updated_at := now } with hr1
    obtain ⟨l1, l2, hl, hfalse, hupd⟩ := updateFirst_decomp (ownedQuery sid uid) r1 store.sessions s hfind
    have hq1 : ownedQuery sid uid r1 = true := by
      simpa [hr1, ownedQuery] using hq
    refine ⟨{ store with sessions := updateFirst (ownedQuery sid uid) r1 store.sessions }, r1, ?_, ?_, ?_⟩
    · simp [saveDraft, hval, hbsid, hschema, hfind, hr1]
    · simp [hr1, hnotags, tagsOrEmpty]
    · show (updateFirst (ownedQuery sid uid) r1 store.sessions).find? (ownedQuery sid uid) = some r1
      rw [hupd]
      exact find?_prefix_cons _ _ _ _ hfalse hq1
  · intro b hnotags
    have hval : sessionValidation isURL b = false := by
      simp [sessionValidation, hnotags, tagsArrayOk]
    simp [saveDraft, applyOp, hval]

/-- Witness for the amended claim C10: the concrete record holding two tags
ends up with the empty tag list when updated by a body with no tags field,
and is left unchanged (ValidationError) by a body with a null tags field. -/
theorem omitted_tags_cleared_witness :
    wDraftStore.sessions.find? (ownedQuery 1 7) = some wDraft ∧
    wDraft.tags ≠ [] ∧
    (∃ st' r, saveDraft isURLApprox wDraftStore 7 wBodyNoTags 4 = .ok (st', r) ∧
      r.tags = [] ∧ st'.sessions.find? (ownedQuery 1 7) = some r) ∧
    (saveDraft isURLApprox wDraftStore 7 wBodyNullTags 4 = .error .ValidationError ∧
     applyOp isURLApprox wDraftStore (.save 7 wBodyNullTags 4) = wDraftStore) :=
  ⟨by decide, by decide,
   (omitted_tags_cleared isURLApprox wDraftStore 7 1 4).1 wBodyNoTags wDraft
     (by decide) (by decide) (by decide) (by decide),
   (omitted_tags_cleared isURLApprox wDraftStore 7 1 4).2 wBodyNullTags (by decide)⟩

/-! Section: Claim C3: ownership mismatch is masked as NotFound with no write -/

/-- Claim C3: for an existing record and a caller different from its owner,
both save_draft (with a valid body addressing that id) and publish return
NotFound — the very error returned when the id does not exist at all — and
the store is left completely unchanged. -/
theorem ownership_masked_as_notfound (isURL : Str → Bool) (store : Store)
    (uid sid now pnow : Nat) (b : DraftBody) (s : Session)
    (hnodup : (store.sessions.map Session.id).Nodup)
    (hmem : s ∈ store.sessions) (hsid : s.id = sid) (howner : s.user_id ≠ uid)
    (hval : sessionValidation isURL b = true) (hbsid : b.sessionId = some sid)
    (htags : ((tagsOrEmpty b.tags).map trimStr).all (fun tg => decide (tg.length ≤ 50))
      = true) :
    saveDraft isURL store uid b now = .error .NotFound ∧
    publishSession store uid (some sid) pnow = .error .NotFound ∧
    applyOp isURL store (.save uid b now) = store ∧
    applyOp isURL store (.pub uid (some sid) pnow) = store := by
  have hschema := schemaValid_of_validation isURL b hval htags
  have hfind : store.sessions.find? (ownedQuery sid uid) = none := by
    rw [List.find?_eq_none]
    intro r hr hq
    obtain ⟨hrid, hruid⟩ := (ownedQuery_iff sid uid r).mp hq
    have hrs : r = s :=
      List.inj_on_of_nodup_map hnodup hr hmem (by rw [hrid, hsid])
    exact howner (by rw [← hrs, hruid])
  refine ⟨?_, ?_, ?_, ?_⟩ <;>
    simp [saveDraft, publishSession, applyOp, hval, hbsid, hschema, hfind]

/-- Witness for claim C3: user 9 addressing user 7's record 1 gets NotFound
from both save_draft and publish, and the concrete store is unchanged. -/
theorem ownership_masked_as_notfound_witness :
    (wDraftStore.sessions.map Session.id).Nodup ∧
    wDraft ∈ wDraftStore.sessions ∧ wDraft.user_id ≠ 9 ∧
    (saveDraft isURLApprox wDraftStore 9 wBody 4 = .error .NotFound ∧
     publishSession wDraftStore 9 (some 1) 5 = .error .NotFound ∧
     applyOp isURLApprox wDraftStore (.save 9 wBody 4) = wDraftStore ∧
     applyOp isURLApprox wDraftStore (.pub 9 (some 1) 5) = wDraftStore) :=
  ⟨by decide, by decide, by decide,
   ownership_masked_as_notfound isURLApprox wDraftStore 9 1 4 5 wBody wDraft
     (by decide) (by decide) (by decide) (by decide) (by decide) (by decide) (by decide)⟩

/-! Section: Claim C2: published status is monotonic -/

theorem update_preserves_list (l : List Session) (nid sid sid' uid : Nat) (s s' : Session)
    (hfind : l.find? (ownedQuery sid' uid) = some s)
    (hid : s'.id = s.id)
    (hstat : s'.status = s.status ∨ s'.status = .published)
    (hwf : ∀ r ∈ l, r.id < nid)
    (hex : ∃ x ∈ l, x.id = sid)
    (hall : ∀ r ∈ l, r.id = sid → r.status = .published) :
    (∀ r ∈ updateFirst (ownedQuery sid' uid) s' l, r.id < nid) ∧
    (∃ x ∈ updateFirst (ownedQuery sid' uid) s' l, x.id = sid) ∧
    (∀ r ∈ updateFirst (ownedQuery sid' uid) s' l, r.id = sid → r.status = .published) := by
  obtain ⟨l1, l2, hl, hfalse, hupd⟩ := updateFirst_decomp (ownedQuery sid' uid) s' l s hfind
  have hsmem : s ∈ l := List.mem_of_find?_eq_some hfind
  refine ⟨?_, ?_, ?_⟩
  · intro r hr
    rw [hupd] at hr
    rcases List.mem_append.mp hr with h1 | h2
    · exact hwf r (by rw [hl]; exact List.mem_append.mpr (Or.inl h1))
    · rcases List.mem_cons.mp h2 with rfl | h2
      · rw [hid]
        exact hwf s hsmem
      · exact hwf r (by rw [hl]; simp [h2])
  · obtain ⟨x, hx, hxid⟩ := hex
    rw [hl] at hx
    rcases List.mem_append.mp hx with h1 | h2
    · exact ⟨x, by rw [hupd]; simp [h1], hxid⟩
    · rcases List.mem_cons.mp h2 with rfl | h2
      · exact ⟨s', by rw [hupd]; simp, by rw [hid]; exact hxid⟩
      · exact ⟨x, by rw [hupd]; simp [h2], hxid⟩
  · intro r hr hrid
    rw [hupd] at hr
    rcases List.mem_append.mp hr with h1 | h2
    · exact hall r (by rw [hl]; simp [h1]) hrid
    · rcases List.mem_cons.mp h2 with rfl | h2
      · rcases hstat with hst | hst
        · rw [hst]
          exact hall s hsmem (by rw [← hid]; exact hrid)
        · exact hst
      · exact hall r (by rw [hl]; simp [h2]) hrid

theorem applyOp_preserves (isURL : Str → Bool) (store : Store) (op : Op) (sid : Nat)
    (hwf : StoreWF store) (hpub : PublishedAt store sid) :
    StoreWF (applyOp isURL store op) ∧ PublishedAt (applyOp isURL store op) sid := by
  obtain ⟨hex, hall⟩ := hpub
  cases op with
  | save uid b now =>
    cases hval : sessionValidation isURL b with
    | false =>
      simp only [applyOp, saveDraft, hval, Bool.false_eq_true, if_false]
      exact ⟨hwf, hex, hall⟩
    | true =>
      cases hbsid : b.sessionId with
      | some sid' =>
        cases hschema : schemaValid (trimStr b.title) (trimStr b.json_file_url)
            ((tagsOrEmpty b.tags).map trimStr) with
        | false =>
          simp only [applyOp, saveDraft, hval, hbsid, hschema, if_true,
            Bool.false_eq_true, if_false]
          exact ⟨hwf, hex, hall⟩
        | true =>
          cases hfind : store.sessions.find? (ownedQuery sid' uid) with
          | none =>
            simp only [applyOp, saveDraft, hval, hbsid, hschema, hfind, if_true]
            exact ⟨hwf, hex, hall⟩
          | some s =>
            simp only [applyOp, saveDraft, hval, hbsid, hschema, hfind, if_true]
            obtain ⟨h1, h2, h3⟩ := update_preserves_list store.sessions store.nextId sid sid' uid s
              { s with title := trimStr b.title, tags := (tagsOrEmpty b.tags).map trimStr, json_file_url := trimStr b.json_file_url, updated_at := now }
              hfind rfl (Or.inl rfl) hwf hex hall
            exact ⟨h1, h2, h3⟩
      | none =>
        cases hschema : schemaValid (trimStr b.title) (trimStr b.json_file_url)
            ((tagsOrEmpty b.tags).map trimStr) with
        | false =>
          simp only [applyOp, saveDraft, hval, hbsid, hschema, if_true,
            Bool.false_eq_true, if_false]
          exact ⟨hwf, hex, hall⟩
        | true =>
          simp only [applyOp, saveDraft, hval, hbsid, hschema, if_true]
          refine ⟨?_, ?_, ?_⟩
          · intro r hr
            rcases List.mem_append.mp hr with h | h
            · exact Nat.lt_succ_of_lt (hwf r h)
            · rcases List.mem_singleton.mp h with rfl
              exact Nat.lt_succ_self _
          · obtain ⟨x, hx, hxid⟩ := hex
            exact ⟨x, List.mem_append_left _ hx, hxid⟩
          · intro r hr hrid
            rcases List.mem_append.mp hr with h | h
            · exact hall r h hrid
            · obtain ⟨x, hx, hxid⟩ := hex
              have hlt : sid < store.nextId := hxid ▸ hwf x hx
              rcases List.mem_singleton.mp h with rfl
              simp only at hrid
              omega
  | pub uid osid now =>
    cases osid with
    | none =>
      simp only [applyOp, publishSession]
      exact ⟨hwf, hex, hall⟩
    | some sid' =>
      cases hfind : store.sessions.find? (ownedQuery sid' uid) with
      | none =>
        simp only [applyOp, publishSession, hfind]
        exact ⟨hwf, hex, hall⟩
      | some s =>
        simp only [applyOp, publishSession, hfind]
        obtain ⟨h1, h2, h3⟩ := update_preserves_list store.sessions store.nextId sid sid' uid s
          { s with status := .published, updated_at := now }
          hfind rfl (Or.inr rfl) hwf hex hall
        exact ⟨h1, h2, h3⟩

theorem applyOps_preserves (isURL : Str → Bool) (sid : Nat) (ops : List Op) :
    ∀ store : Store, StoreWF store → PublishedAt store sid →
      StoreWF (applyOps isURL store ops) ∧ PublishedAt (applyOps isURL store ops) sid := by
  induction ops with
  | nil =>
    intro store hwf hpub
    exact ⟨hwf, hpub⟩
  | cons op ops ih =>
    intro store hwf hpub
    have h := applyOp_preserves isURL store op sid hwf hpub
    exact ih (applyOp isURL store op) h.1 h.2

/-- Claim C2: in a well-formed store, once the record with a given id is
published, applying any sequence of save_draft and publish operations
leaves it existing and published — no operation of this core ever sets the
status back to draft. -/
theorem published_status_monotonic (isURL : Str → Bool) (store : Store) (ops : List Op)
    (sid : Nat) (hwf : StoreWF store) (hpub : PublishedAt store sid) :
    PublishedAt (applyOps isURL store ops) sid :=
  (applyOps_preserves isURL sid ops store hwf hpub).2

/-- Witness for claim C2: a concrete published record stays published under
a sequence holding a successful owner save, a foreign save, a republish and
a fresh create. -/
theorem published_status_monotonic_witness :
    StoreWF wPubStore ∧ PublishedAt wPubStore 1 ∧
    PublishedAt
      (applyOps isURLApprox wPubStore
        [.save 7 wBody 2, .save 9 wBody 3, .pub 7 (some 1) 4,
         .save 7 { title := ("B".data), tags := .arr [], json_file_url := ("https://example.com/b.json".data), sessionId := none } 5])
      1 :=
  ⟨by decide, by decide,
   published_status_monotonic isURLApprox wPubStore
     [.save 7 wBody 2, .save 9 wBody 3, .pub 7 (some 1) 4,
      .save 7 { title := ("B".data), tags := .arr [], json_file_url := ("https://example.com/b.json".data), sessionId := none } 5]
     1 (by decide) (by decide)⟩

/-! Section: Claim C6: debounce coalescing -/

theorem saveGuard_eq_false_of_armGuard (fd : FormData) (h : armGuard fd = false) :
    saveGuard fd = false := by
  unfold armGuard at h
  unfold saveGuard
  cases hA : decide (trimStr fd.title = []) <;>
    cases hB : decide (trimStr fd.json_file_url = []) <;> simp_all

theorem autosaveRun_after_edit (es : List (Nat × FormData)) :
    ∀ (t : Nat) (fd : FormData) (st : AutosaveState), st.idKnown = true →
      List.Chain gapOk (t, fd) es →
      autosaveRun (autosaveEdit fd t st) es = firedSaves (es.getLastD (t, fd)).2 := by
  induction es with
  | nil =>
    intro t fd st hknown _
    cases harm : armGuard fd with
    | false =>
      have hsg := saveGuard_eq_false_of_armGuard fd harm
      simp [autosaveRun, drainAll, fireOne, autosaveEdit, effectRun, harm, firedSaves, hsg]
    | true =>
      cases hsg : saveGuard fd with
      | false =>
        simp [autosaveRun, drainAll, fireOne, autosaveEdit, effectRun, harm, hsg, firedSaves]
      | true =>
        simp [autosaveRun, drainAll, fireOne, autosaveEdit, effectRun, harm, hsg, hknown,
          firedSaves]
  | cons e rest ih =>
    intro t fd st hknown hchain
    obtain ⟨t', fd'⟩ := e
    rw [List.chain_cons] at hchain
    obtain ⟨hgap, hchain'⟩ := hchain
    have hclose : t' < t + debounceDelay := hgap.2
    have hnofire : ¬ (t + debounceDelay ≤ t') := by omega
    have hdue : fireDue (autosaveEdit fd t st) t' = ([], autosaveEdit fd t st) := by
      cases harm : armGuard fd with
      | false => simp [fireDue, autosaveEdit, effectRun, harm]
      | true => simp [fireDue, autosaveEdit, effectRun, harm, hnofire]
    simp only [autosaveRun, hdue, List.nil_append, List.getLastD_cons]
    exact ih t' fd' (autosaveEdit fd t st) (by simp [autosaveEdit, effectRun, hknown]) hchain'

/-- Counterexample to claim C6: on a fresh editor (no session id yet), a
single valid edit produces two upsert calls, not one — the debounced save
mints the id, which changes the saveDraft callback identity, re-runs the
auto-save effect, and arms a second timer carrying the same form values. -/
theorem fresh_session_double_upsert_cex :
    autosaveRun { timer := none, formData := wFdEmpty, idKnown := false } [(0, wFd1)]
      = [wFd1, wFd1] ∧
    ¬ ([wFd1, wFd1] = [wFd1]) :=
  ⟨by decide, by decide⟩

/-- Claim C6 as amended: on an editor whose session id is already known (so
the saveDraft callback identity cannot change), one or more edit events
each arriving within the quiet interval of the previous one, with the last
edit carrying nonempty required fields, make the autosave scheduler issue
exactly one upsert call — at quiet-interval expiry after the last edit,
carrying the last edit's field values; intermediate edits are never
separately persisted. On a fresh editor the same burst issues a second,
duplicate call (see the counterexample), which is what the counterexample
forces this amendment to exclude. -/
theorem debounce_single_upsert_known_id (st0 : AutosaveState) (t0 : Nat) (fd0 : FormData)
    (rest : List (Nat × FormData))
    (hknown : st0.idKnown = true) (htimer : st0.timer = none)
    (hchain : List.Chain gapOk (t0, fd0) rest)
    (hguard : saveGuard (rest.getLastD (t0, fd0)).2 = true) :
    autosaveRun st0 ((t0, fd0) :: rest) = [(rest.getLastD (t0, fd0)).2] := by
  have hdue : fireDue st0 t0 = ([], st0) := by
    simp [fireDue, htimer]
  simp only [autosaveRun, hdue]
  rw [autosaveRun_after_edit rest t0 fd0 st0 hknown hchain]
  simp only [firedSaves, hguard, if_true, List.nil_append]

/-- Witness for the amended claim C6: with the session id known, two edits
three time units apart — the first with an empty URL, the second complete —
produce exactly one upsert call, carrying the second edit's values. -/
theorem debounce_single_upsert_known_id_witness :
    ({ timer := none, formData := wFdEmpty, idKnown := true } : AutosaveState).idKnown
      = true ∧
    saveGuard wFd1 = true ∧
    autosaveRun { timer := none, formData := wFdEmpty, idKnown := true }
      [(0, wFd0), (3, wFd1)] = [wFd1] :=
  ⟨rfl, by decide,
   debounce_single_upsert_known_id { timer := none, formData := wFdEmpty, idKnown := true }
     0 wFd0 [(3, wFd1)] rfl rfl
     (List.Chain.cons ⟨by decide, by decide⟩ List.Chain.nil) (by decide)⟩

/-! Section: Claim C1: publish flushes the pending edit first -/

theorem saveDraft_update_ok (isURL : Str → Bool) (store : Store) (uid sid now : Nat)
    (b : DraftBody) (s : Session)
    (hval : sessionValidation isURL b = true) (hbsid : b.sessionId = some sid)
    (hschema : schemaValid (trimStr b.title) (trimStr b.json_file_url)
      ((tagsOrEmpty b.tags).map trimStr) = true)
    (hfind : store.sessions.find? (ownedQuery sid uid) = some s) :
    saveDraft isURL store uid b now
      = .ok ({ store with sessions := updateFirst (ownedQuery sid uid) { s with title := trimStr b.title, tags := (tagsOrEmpty b.tags).map trimStr, json_file_url := trimStr b.json_file_url, updated_at := now } store.sessions }, { s with title := trimStr b.title, tags := (tagsOrEmpty b.tags).map trimStr, json_file_url := trimStr b.json_file_url, updated_at := now }) := by
  simp [saveDraft, hval, hbsid, hschema, hfind]

/-- Counterexample to claim C1: with a pending unsaved edit E whose parsed
tags contain one 51-character tag, the flush inside handlePublish fails
server-side, the frontend saveDraft callback swallows the error, and the
publish proceeds anyway — the published record keeps the earlier flushed
revision's title ("Old"), not E's title ("New"). -/
theorem publish_after_failed_flush_cex :
    wEditCex.hasUnsavedChanges = true ∧
    (handlePublish isURLApprox 7 wEditCex 9).store.sessions.find? (ownedQuery 1 7)
      = some { wDraft with status := .published, updated_at := 9 } ∧
    wDraft.title ≠ trimStr (trimStr wEditCex.formData.title) :=
  ⟨rfl, by decide, by decide⟩

/-- Claim C1 as amended: for a pending unsaved edit E over an existing owned
record (with a known session id), where E passes route validation and its
parsed tags also pass the schema bound (at most 50 units each), invoking
handlePublish first flushes E through save-draft and only then publishes:
the resulting record's title, tags and content reference are exactly E's
persisted values and its status is published. The restriction to edits
whose tags pass the schema bound is forced by the counterexample: when the
flush is rejected server-side the frontend swallows the error and the
publish finalizes the earlier revision. -/
theorem publish_flushes_pending_edit (isURL : Str → Bool) (uid sid now : Nat)
    (st : EditorState) (s : Session)
    (hid : st.currentSessionId = some sid)
    (hfind : st.store.sessions.find? (ownedQuery sid uid) = some s)
    (hpending : st.hasUnsavedChanges = true)
    (hval : sessionValidation isURL (bodyOfForm st.formData (some sid)) = true)
    (htags : (parseTags st.formData.tags).all
      (fun tg => decide ((trimStr tg).length ≤ 50)) = true) :
    ∃ r, (handlePublish isURL uid st now).store.sessions.find? (ownedQuery sid uid)
        = some r ∧
      r.title = trimStr (trimStr st.formData.title) ∧
      r.tags = (parseTags st.formData.tags).map trimStr ∧
      r.json_file_url = trimStr (trimStr st.formData.json_file_url) ∧
      r.status = .published ∧ r.updated_at = now := by
  have hvc := hval
  simp only [sessionValidation, bodyOfForm, Bool.and_eq_true, decide_eq_true_eq] at hvc
  have hT : ¬ (trimStr st.formData.title = []) := by
    intro h
    have h1 := hvc.1.1.1.1
    rw [h, trimStr_nil] at h1
    simp at h1
  have hU : ¬ (trimStr st.formData.json_file_url = []) := by
    intro h
    have h1 := hvc.1.1.2
    rw [h, trimStr_nil] at h1
    simp at h1
  have hg : (decide (trimStr st.formData.title = [])
      || decide (trimStr st.formData.json_file_url = [])) = false := by
    simp [hT, hU]
  have htags2 : ((tagsOrEmpty (bodyOfForm st.formData (some sid)).tags).map trimStr).all
      (fun tg => decide (tg.length ≤ 50)) = true := by
    simpa [bodyOfForm, tagsOrEmpty, List.all_map, Function.comp] using htags
  have hschema :=
    schemaValid_of_validation isURL (bodyOfForm st.formData (some sid)) hval htags2
  have hq : ownedQuery sid uid s = true := List.find?_some hfind
  set r1 : Session := { s with title := trimStr (trimStr st.formData.title), tags := (parseTags st.formData.tags).map trimStr, json_file_url := trimStr (trimStr st.formData.json_file_url), updated_at := now } with hr1
  set s2 : Session := { s with title := trimStr (trimStr st.formData.title), tags := (parseTags st.formData.tags).map trimStr, json_file_url := trimStr (trimStr st.formData.json_file_url), status := .published, updated_at := now } with hs2
  have hq1 : ownedQuery sid uid r1 = true := by
    simpa [hr1, ownedQuery] using hq
  have hq2 : ownedQuery sid uid s2 = true := by
    simpa [hs2, ownedQuery] using hq
  obtain ⟨l1, l2, hl, hfalse, hupd⟩ :=
    updateFirst_decomp (ownedQuery sid uid) r1 st.store.sessions s hfind
  have hsave : saveDraft isURL st.store uid (bodyOfForm st.formData (some sid)) now
      = .ok ({ st.store with sessions := updateFirst (ownedQuery sid uid) r1 st.store.sessions }, r1) :=
    saveDraft_update_ok isURL st.store uid sid now (bodyOfForm st.formData (some sid)) s
      hval rfl hschema hfind
  have hclient : clientSaveDraft isURL uid st.formData st now
      = { st with store := { st.store with sessions := updateFirst (ownedQuery sid uid) r1 st.store.sessions }, currentSessionId := some sid, hasUnsavedChanges := false } := by
    simp only [clientSaveDraft, hg, Bool.false_eq_true, if_false, hid, hsave, Option.getD_some]
  have hfind2 : (updateFirst (ownedQuery sid uid) r1 st.store.sessions).find?
      (ownedQuery sid uid) = some r1 := by
    rw [hupd]
    exact find?_prefix_cons _ _ _ _ hfalse hq1
  have hpubok : publishSession { st.store with sessions := updateFirst (ownedQuery sid uid) r1 st.store.sessions } uid (some sid) now
      = .ok ({ st.store with sessions := updateFirst (ownedQuery sid uid) s2 (updateFirst (ownedQuery sid uid) r1 st.store.sessions) }, s2) := by
    simp only [publishSession, hfind2]
  refine ⟨s2, ?_, rfl, rfl, rfl, rfl, rfl⟩
  simp only [handlePublish, hg, Bool.false_eq_true, if_false, hpending, if_true, hclient,
    hid, hpubok]
  show (updateFirst (ownedQuery sid uid) s2 (updateFirst (ownedQuery sid uid) r1 st.store.sessions)).find? (ownedQuery sid uid) = some s2
  rw [hupd, updateFirst_prefix_cons _ _ _ _ _ hfalse hq1]
  exact find?_prefix_cons _ _ _ _ hfalse hq2

/-- Witness for the amended claim C1: publishing with a concrete valid
pending edit over `wDraftStore` yields a published record carrying the
edit's trimmed title, parsed tags and trimmed URL. -/
theorem publish_flushes_pending_edit_witness :
    wEditOk.currentSessionId = some 1 ∧
    wEditOk.store.sessions.find? (ownedQuery 1 7) = some wDraft ∧
    wEditOk.hasUnsavedChanges = true ∧
    sessionValidation isURLApprox (bodyOfForm wEditOk.formData (some 1)) = true ∧
    (∃ r, (handlePublish isURLApprox 7 wEditOk 9).store.sessions.find? (ownedQuery 1 7)
        = some r ∧
      r.title = trimStr (trimStr wEditOk.formData.title) ∧
      r.tags = (parseTags wEditOk.formData.tags).map trimStr ∧
      r.json_file_url = trimStr (trimStr wEditOk.formData.json_file_url) ∧
      r.status = .published ∧ r.updated_at = 9) :=
  ⟨rfl, by decide, rfl, by decide,
   publish_flushes_pending_edit isURLApprox 7 1 9 wEditOk wDraft
     (by decide) (by decide) (by decide) (by decide) (by decide)⟩

end WellnessSessions
